import Mathlib

/-!
Verification development for the bayut_scrapy repository.

This file gives a shallow embedding of the core state machines and
data-store operations of the repository:

* the bot-challenge detector and the escalating cooldown state machine of
  `bayut_spider/extraction/bayut_detail_scraper.py`,
* the per-item procedure `BayutDetailScraper.process_property`,
* the incremental harvester loop of
  `bayut_spider/extraction/bayut_incremental_scraper.py`,
* the dedup-store upsert of `bayut_spider/extraction/bayut_ldjson_to_mongo.py`
  (`bulk_upsert_items`),
* the empty-page stopping loop of `run_csv_mode` / `bayut_csv_scraper.py`,
* the identity resolver `property_id_from_url` / `doc_from_item`.

MongoDB collections are modelled as association lists keyed by
`property_id`, with `update_one(..., upsert=True)` as replace-first-match
or append; machine integers are `Nat` (the Python `int(x * 1.5)` becomes
`3 * x / 2` in `Nat`, which is exact floor semantics for the values involved).
-/

namespace Bayut

/-! ## Bot-challenge detector (`_detect_bot_challenge`) -/

/-- Truthiness of the four values `extracted_data.get(f)` for the essential
fields `price`, `bedrooms`, `headline`, `locality`: each Boolean records
whether the corresponding value is present and truthy in the extracted dict. -/
structure ExtractedData where
  price : Bool
  bedrooms : Bool
  headline : Bool
  locality : Bool
deriving Repr, DecidableEq

/-- `sum(1 for field in essential_fields if not extracted_data.get(field))`
over `['price', 'bedrooms', 'headline', 'locality']`. -/
def missingFields (d : ExtractedData) : Nat :=
  (if d.price then 0 else 1) + (if d.bedrooms then 0 else 1) +
    (if d.headline then 0 else 1) + (if d.locality then 0 else 1)

/-- `html.lower()` on a character-list representation of the body. -/
def lowerStr (s : List Char) : List Char := s.map Char.toLower

/-- Python `hay.startswith(needle)` on character lists. -/
def startsWith : List Char → List Char → Bool
  | _, [] => true
  | [], _ :: _ => false
  | h :: hs, n :: ns => h == n && startsWith hs ns

/-- Python substring membership `needle in hay` on character lists. -/
def containsSub (needle : List Char) : List Char → Bool
  | [] => startsWith [] needle
  | h :: hs => startsWith (h :: hs) needle || containsSub needle hs

/-- The fixed `bot_indicators` list of `_detect_bot_challenge`. -/
def botIndicators : List (List Char) :=
  [ "please verify you are human".data
  , "captcha".data
  , "robot".data
  , "cloudflare".data
  , "access denied".data
  , "blocked".data
  , "rate limit".data
  , "too many requests".data
  , "suspicious activity".data ]

/-- `BayutDetailScraper._detect_bot_challenge(html, extracted_data)`:
`true` means the page is classified as a bot Challenge, `false` as Normal. -/
def detectBotChallenge (html : List Char) (d : ExtractedData) : Bool :=
  if missingFields d ≥ 3 then true
  else botIndicators.any (fun ind => containsSub ind (lowerStr html))

/-! ## Cooldown state machine (`_handle_cooldown` and the module constants) -/

/-- `BOT_DETECTION_THRESHOLD = 3` in `bayut_detail_scraper.py`. -/
def BOT_DETECTION_THRESHOLD : Nat := 3

/-- `INITIAL_COOLDOWN = 15 * 60` seconds. -/
def INITIAL_COOLDOWN : Nat := 15 * 60

/-- `int(c * COOLDOWN_MULTIPLIER)` with `COOLDOWN_MULTIPLIER = 1.5`:
for a nonnegative integer number of seconds `c`, Python computes the float
`c * 1.5` (exact for these magnitudes) and truncates, i.e. `⌊3c/2⌋`. -/
def nextCooldown (c : Nat) : Nat := 3 * c / 2

/-- The `self.stats` counter dictionary of `BayutDetailScraper`
(the fields the detail-fetch path mutates). -/
structure Stats where
  total : Nat
  processed : Nat
  success : Nat
  failed : Nat
  skipped : Nat
  botChallenges : Nat
  cooldowns : Nat
deriving Repr, DecidableEq

/-- The mutable anti-bot state of `BayutDetailScraper`:
`consecutive_challenges`, `current_cooldown`, `cooldown_count`,
`last_challenge_time`, together with the statistics counters. -/
structure ScraperState where
  consecutiveChallenges : Nat
  currentCooldown : Nat
  cooldownCount : Nat
  lastChallengeTime : Option Nat
  stats : Stats
deriving Repr, DecidableEq

/-- The state of `BayutDetailScraper` right after `__init__`. -/
def initScraperState : ScraperState :=
  { consecutiveChallenges := 0
    currentCooldown := INITIAL_COOLDOWN
    cooldownCount := 0
    lastChallengeTime := none
    stats := ⟨0, 0, 0, 0, 0, 0, 0⟩ }

/-- `BayutDetailScraper._handle_cooldown()`.  The sleep itself is abstracted;
`shutdown` is the value of the global `SHUTDOWN_REQUESTED` flag observed during
the interruptible wait.  Returns the Python return value paired with the
updated object state: the cooldown counters are bumped before the wait; on a
normal (non-shutdown) expiry the duration is multiplied by 1.5 (truncating),
`consecutive_challenges` is reset to 0 and `last_challenge_time` cleared. -/
def handleCooldown (shutdown : Bool) (s : ScraperState) : Bool × ScraperState :=
  let s1 : ScraperState :=
    { s with
      cooldownCount := s.cooldownCount + 1
      stats := { s.stats with cooldowns := s.stats.cooldowns + 1 } }
  if shutdown then
    (false, s1)
  else
    (true,
      { s1 with
        currentCooldown := nextCooldown s1.currentCooldown
        consecutiveChallenges := 0
        lastChallengeTime := none })

/-- The sequence of cooldown durations used by successive cooldown cycles:
`cooldownSeq 0 = INITIAL_COOLDOWN` is the first cooldown's duration and each
normal expiry advances the sequence by `nextCooldown`. -/
def cooldownSeq : Nat → Nat
  | 0 => INITIAL_COOLDOWN
  | n + 1 => nextCooldown (cooldownSeq n)

theorem cooldownSeq_ge : ∀ n, 900 ≤ cooldownSeq n := by
  intro n
  induction n with
  | zero => simp [cooldownSeq, INITIAL_COOLDOWN]
  | succ n ih =>
    have : 900 * 2 ≤ 3 * cooldownSeq n := by omega
    calc 900 ≤ 3 * cooldownSeq n / 2 := by
          exact (Nat.le_div_iff_mul_le (by omega)).mpr this
      _ = cooldownSeq (n + 1) := rfl

theorem cooldownSeq_linear_growth : ∀ n, 900 + 450 * n ≤ cooldownSeq n := by
  intro n
  induction n with
  | zero => simp [cooldownSeq, INITIAL_COOLDOWN]
  | succ n ih =>
    have h9 := cooldownSeq_ge n
    have : (cooldownSeq n + 450) * 2 ≤ 3 * cooldownSeq n := by omega
    have hstep : cooldownSeq n + 450 ≤ 3 * cooldownSeq n / 2 :=
      (Nat.le_div_iff_mul_le (by omega)).mpr this
    have : cooldownSeq n + 450 ≤ cooldownSeq (n + 1) := hstep
    omega

/-- C3: on every normal cooldown expiry `_handle_cooldown` multiplies
`current_cooldown` by the fixed factor 1.5 (with integer truncation,
`⌊3c/2⌋`), resets `consecutive_challenges` to 0 and increments
`cooldown_count`; consequently the sequence of cooldown durations starting
from `INITIAL_COOLDOWN = 900` seconds is strictly increasing and unbounded,
and the second cooldown's duration is exactly 1350 seconds. -/
theorem cooldown_escalation_c3 :
    (∀ s : ScraperState,
      (handleCooldown false s).2.currentCooldown = 3 * s.currentCooldown / 2 ∧
      (handleCooldown false s).2.consecutiveChallenges = 0 ∧
      (handleCooldown false s).2.cooldownCount = s.cooldownCount + 1 ∧
      (handleCooldown false s).2.stats.cooldowns = s.stats.cooldowns + 1) ∧
    (∀ n, cooldownSeq n < cooldownSeq (n + 1)) ∧
    (∀ M, ∃ n, M < cooldownSeq n) ∧
    INITIAL_COOLDOWN = 900 ∧ cooldownSeq 1 = 1350 := by
  refine ⟨fun s => ⟨rfl, rfl, rfl, rfl⟩, ?_, ?_, rfl, by decide⟩
  · intro n
    have h9 := cooldownSeq_ge n
    have : (cooldownSeq n + 1) * 2 ≤ 3 * cooldownSeq n := by omega
    have hstep : cooldownSeq n + 1 ≤ 3 * cooldownSeq n / 2 :=
      (Nat.le_div_iff_mul_le (by omega)).mpr this
    have : cooldownSeq n + 1 ≤ cooldownSeq (n + 1) := hstep
    omega
  · intro M
    refine ⟨M, ?_⟩
    have := cooldownSeq_linear_growth M
    omega

/-- C4: `_detect_bot_challenge` returns Challenge (`true`) if and only if at
least 3 of the 4 essential fields are absent, or the lower-cased raw body
contains one of the fixed indicator substrings (each of which is itself
lower-case, making the membership test case-insensitive); when neither
condition holds it returns Normal (`false`). -/
theorem detect_bot_challenge_iff_c4 :
    (∀ (html : List Char) (d : ExtractedData),
      detectBotChallenge html d = true ↔
        3 ≤ missingFields d ∨
          ∃ ind ∈ botIndicators, containsSub ind (lowerStr html) = true) ∧
    botIndicators.all (fun ind => lowerStr ind == ind) = true := by
  refine ⟨fun html d => ?_, by decide⟩
  unfold detectBotChallenge
  by_cases h : missingFields d ≥ 3
  · simp [h]
  · simp only [h, if_false, List.any_eq_true]
    constructor
    · rintro ⟨ind, hmem, hc⟩
      exact Or.inr ⟨ind, hmem, hc⟩
    · rintro (h3 | ⟨ind, hmem, hc⟩)
      · exact h3.elim
      · exact ⟨ind, hmem, hc⟩

/-! ## Detail fetch engine (`BayutDetailScraper.process_property`) -/

/-- One document of the `property_details` collection.  Fields the Python
code only sets on some code paths (`bot_challenge`, `error`,
`extracted_data`) are `Option`s, `none` meaning the field is absent from the
Mongo document; `$set` merges into an existing document, leaving the other
fields as they were. -/
structure DetailDoc where
  propertyId : String
  url : String
  scrapedAt : Nat
  extractionSuccess : Bool
  botChallenge : Option Bool
  error : Option String
  extractedData : Option ExtractedData
deriving Repr, DecidableEq

/-- One document of the `sublocation_properties` collection, projected onto
the fields the detail scraper reads or writes. -/
structure PropDoc where
  propertyId : String
  detailedUrl : Option String
  detailScraped : Bool
  detailScrapedAt : Option Nat
deriving Repr, DecidableEq

/-- `details_coll.find_one({'property_id': pid})` on the association-list
model of the collection (documents are unique per `property_id`). -/
def dsGet : List DetailDoc → String → Option DetailDoc
  | [], _ => none
  | d :: rest, pid => if d.propertyId == pid then some d else dsGet rest pid

/-- `details_coll.update_one({'property_id': pid}, {'$set': ...}, upsert=True)`:
replace the first matching document, or append a fresh one if none matches. -/
def dsSet : List DetailDoc → String → DetailDoc → List DetailDoc
  | [], _, v => [v]
  | d :: rest, pid, v =>
    if d.propertyId == pid then v :: rest else d :: dsSet rest pid v

/-- `properties_coll.update_one({'property_id': pid},
{'$set': {'detail_scraped': True, 'detail_scraped_at': now}})` — first match
only, no upsert. -/
def markDetailScraped : List PropDoc → String → Nat → List PropDoc
  | [], _, _ => []
  | p :: rest, pid, now =>
    if p.propertyId == pid then
      { p with detailScraped := true, detailScrapedAt := some now } :: rest
    else p :: markDetailScraped rest pid now

/-- The `find_one({'property_id': pid, 'extraction_success': True})` test that
guards the skip branch of `process_property`. -/
def hasSuccessfulRecord (details : List DetailDoc) (pid : String) : Bool :=
  match dsGet details pid with
  | some d => d.extractionSuccess
  | none => false

/-- The `$set` document of the transport-failure / extraction-error branches:
sets id, url, timestamp, `extraction_success=False` and `error`, merged into
any existing document for the same id. -/
def setFailureDoc (pid url : String) (now : Nat) (err : String) :
    Option DetailDoc → DetailDoc
  | none => ⟨pid, url, now, false, none, some err, none⟩
  | some o =>
    { o with
      propertyId := pid, url := url, scrapedAt := now
      extractionSuccess := false, error := some err }

/-- The `$set` document of the bot-challenge branch: sets id, url, timestamp,
`extraction_success=False`, `bot_challenge=True` and the partial
`extracted_data`. -/
def setChallengeDoc (pid url : String) (now : Nat) (ed : ExtractedData) :
    Option DetailDoc → DetailDoc
  | none => ⟨pid, url, now, false, some true, none, some ed⟩
  | some o =>
    { o with
      propertyId := pid, url := url, scrapedAt := now
      extractionSuccess := false, botChallenge := some true
      extractedData := some ed }

/-- The `$set` document of the success branch (`detail_doc`): sets id, url,
timestamp, `extraction_success=True` and `extracted_data`. -/
def setSuccessDoc (pid url : String) (now : Nat) (ed : ExtractedData) :
    Option DetailDoc → DetailDoc
  | none => ⟨pid, url, now, true, none, none, some ed⟩
  | some o =>
    { o with
      propertyId := pid, url := url, scrapedAt := now
      extractionSuccess := true, extractedData := some ed }

/-- Outcome of one `process_property` call: the Python return value, the
updated scraper state and collections, and whether a network request was
issued (`fetch_property_html` was invoked). -/
structure PPResult where
  ret : Bool
  state : ScraperState
  details : List DetailDoc
  props : List PropDoc
  requestIssued : Bool
deriving Repr, DecidableEq

/-- `BayutDetailScraper.process_property(property_doc)`.

The transport is abstracted by `fetch`: `none` is a transport-level failure
(network error, timeout, or non-200 status — `fetch_property_html` returned
`None`), `some html` a successful 200 response body.  The extractor
collaborator is `extract`; `Except.error e` models
`extractor.extract_all` raising an exception with message `e`.  `now` is the
current timestamp and `shutdown` the global `SHUTDOWN_REQUESTED` flag. -/
def processProperty (doc : PropDoc) (fetch : Option (List Char))
    (extract : List Char → Except String ExtractedData)
    (now : Nat) (shutdown : Bool) (s : ScraperState)
    (details : List DetailDoc) (props : List PropDoc) : PPResult :=
  match doc.detailedUrl with
  | none => ⟨false, s, details, props, false⟩
  | some url =>
    if hasSuccessfulRecord details doc.propertyId then
      ⟨true,
        { s with stats := { s.stats with skipped := s.stats.skipped + 1 } },
        details, props, false⟩
    else
      match fetch with
      | none =>
        ⟨false,
          { s with stats := { s.stats with failed := s.stats.failed + 1 } },
          dsSet details doc.propertyId
            (setFailureDoc doc.propertyId url now "Failed to fetch HTML"
              (dsGet details doc.propertyId)),
          props, true⟩
      | some html =>
        match extract html with
        | Except.error e =>
          ⟨false,
            { s with stats := { s.stats with failed := s.stats.failed + 1 } },
            dsSet details doc.propertyId
              (setFailureDoc doc.propertyId url now e
                (dsGet details doc.propertyId)),
            props, true⟩
        | Except.ok ed =>
          if detectBotChallenge html ed then
            let s1 : ScraperState :=
              { s with
                consecutiveChallenges := s.consecutiveChallenges + 1
                lastChallengeTime := some now
                stats := { s.stats with
                  botChallenges := s.stats.botChallenges + 1 } }
            let details1 :=
              dsSet details doc.propertyId
                (setChallengeDoc doc.propertyId url now ed
                  (dsGet details doc.propertyId))
            if s1.consecutiveChallenges ≥ BOT_DETECTION_THRESHOLD then
              ⟨false, (handleCooldown shutdown s1).2, details1, props, true⟩
            else
              ⟨false, s1, details1, props, true⟩
          else
            let s1 : ScraperState :=
              { s with consecutiveChallenges := 0, lastChallengeTime := none }
            ⟨true,
              { s1 with stats := { s1.stats with
                  success := s1.stats.success + 1 } },
              dsSet details doc.propertyId
                (setSuccessDoc doc.propertyId url now ed
                  (dsGet details doc.propertyId)),
              markDetailScraped props doc.propertyId now, true⟩

/-- Extracted data in which every essential field is absent — classified as a
Challenge (4 of 4 essential fields missing). -/
def edAbsent : ExtractedData := ⟨false, false, false, false⟩

/-- Extracted data in which every essential field is present. -/
def edPresent : ExtractedData := ⟨true, true, true, true⟩

/-- A body with no bot-indicator phrase. -/
def plainHtml : List Char := "x".data

/-- Scenario driver for the challenge sequence: process `n` distinct pending
items whose pages all classify as Challenge, starting from the freshly
initialised scraper against empty collections, with no shutdown request. -/
def challengeRun : Nat → ScraperState × List DetailDoc
  | 0 => (initScraperState, [])
  | n + 1 =>
    let (s, details) := challengeRun n
    let r := processProperty ⟨toString n, some "u", false, none⟩
      (some plainHtml) (fun _ => Except.ok edAbsent) 0 false s details []
    (r.state, r.details)

/-- C1: feeding 5 consecutive Challenge classifications to the sequential
detail engine (threshold 3) enters cooldown exactly once, at the 3rd
challenge — `cooldown_count` after items 1..5 is 0, 0, 1, 1, 1; after the
cooldown's normal expiry `consecutive_challenges` is 0 (and then counts 1, 2
for the 4th and 5th challenges without a second cooldown); a subsequent
Normal classification resets `consecutive_challenges` to 0 again. -/
theorem challenge_cooldown_scenario_c1 :
    (challengeRun 1).1.cooldownCount = 0 ∧
    (challengeRun 2).1.cooldownCount = 0 ∧
    (challengeRun 3).1.cooldownCount = 1 ∧
    (challengeRun 4).1.cooldownCount = 1 ∧
    (challengeRun 5).1.cooldownCount = 1 ∧
    (challengeRun 1).1.consecutiveChallenges = 1 ∧
    (challengeRun 2).1.consecutiveChallenges = 2 ∧
    (challengeRun 3).1.consecutiveChallenges = 0 ∧
    (challengeRun 4).1.consecutiveChallenges = 1 ∧
    (challengeRun 5).1.consecutiveChallenges = 2 ∧
    (processProperty ⟨"p6", some "u", false, none⟩ (some plainHtml)
        (fun _ => Except.ok edPresent) 0 false (challengeRun 5).1
        (challengeRun 5).2 []).state.consecutiveChallenges = 0 := by
  refine ⟨rfl, rfl, rfl, rfl, rfl, rfl, rfl, rfl, rfl, rfl, ?_⟩
  rfl

/-- C5: on a transport-level fetch failure (`fetch = none`) for a pending
item, `process_property` persists a detail record with
`extraction_success=false` and the error message `"Failed to fetch HTML"`,
increments the `failed` counter, and returns `false`; `consecutive_challenges`
and all cooldown state are unchanged, the item collection is untouched, and
the stored record is not a successful one, so the item stays pending and
retryable on a future run. -/
theorem transport_failure_c5 (pid url : String) (now : Nat) (shutdown : Bool)
    (extract : List Char → Except String ExtractedData)
    (ds : Bool) (dsa : Option Nat)
    (s : ScraperState) (details : List DetailDoc) (props : List PropDoc)
    (h : hasSuccessfulRecord details pid = false) :
    let r := processProperty ⟨pid, some url, ds, dsa⟩ none extract now
      shutdown s details props
    r.ret = false ∧
    r.state.consecutiveChallenges = s.consecutiveChallenges ∧
    r.state.currentCooldown = s.currentCooldown ∧
    r.state.cooldownCount = s.cooldownCount ∧
    r.state.lastChallengeTime = s.lastChallengeTime ∧
    r.state.stats.cooldowns = s.stats.cooldowns ∧
    r.state.stats.botChallenges = s.stats.botChallenges ∧
    r.state.stats.failed = s.stats.failed + 1 ∧
    r.props = props ∧
    (∃ d, dsGet r.details pid = some d ∧ d.extractionSuccess = false ∧
      d.error = some "Failed to fetch HTML") ∧
    hasSuccessfulRecord r.details pid = false := by
  intro r
  have hget : ∀ (l : List DetailDoc) (k : String) (v : DetailDoc),
      v.propertyId = k → dsGet (dsSet l k v) k = some v := by
    intro l k v hv
    induction l with
    | nil => simp [dsSet, dsGet, hv]
    | cons d rest ih =>
      by_cases hd : d.propertyId == k
      · simp [dsSet, dsGet, hd, hv]
      · simp only [dsSet, hd, Bool.false_eq_true, if_false, dsGet]
        simp [hd, ih]
  have hr : r = ⟨false,
      { s with stats := { s.stats with failed := s.stats.failed + 1 } },
      dsSet details pid
        (setFailureDoc pid url now "Failed to fetch HTML" (dsGet details pid)),
      props, true⟩ := by
    simp [r, processProperty, h]
  refine ⟨by rw [hr], by rw [hr], by rw [hr], by rw [hr], by rw [hr],
    by rw [hr], by rw [hr], by rw [hr], by rw [hr], ?_, ?_⟩
  · refine ⟨setFailureDoc pid url now "Failed to fetch HTML"
      (dsGet details pid), ?_, ?_, ?_⟩
    · rw [hr]; exact hget _ _ _ (by cases dsGet details pid <;> rfl)
    · cases dsGet details pid <;> rfl
    · cases dsGet details pid <;> rfl
  · rw [hr]
    unfold hasSuccessfulRecord
    rw [hget _ _ _ (by cases dsGet details pid <;> rfl)]
    cases dsGet details pid <;> rfl

/-- Witness for `transport_failure_c5` at a concrete input (empty
collections, fresh scraper state). -/
theorem transport_failure_c5_witness :
    hasSuccessfulRecord [] "p1" = false ∧
    (let r := processProperty ⟨"p1", some "u", false, none⟩ none
        (fun _ => Except.ok edPresent) 0 false initScraperState [] []
     r.ret = false ∧
     r.state.consecutiveChallenges = initScraperState.consecutiveChallenges ∧
     r.state.currentCooldown = initScraperState.currentCooldown ∧
     r.state.cooldownCount = initScraperState.cooldownCount ∧
     r.state.lastChallengeTime = initScraperState.lastChallengeTime ∧
     r.state.stats.cooldowns = initScraperState.stats.cooldowns ∧
     r.state.stats.botChallenges = initScraperState.stats.botChallenges ∧
     r.state.stats.failed = initScraperState.stats.failed + 1 ∧
     r.props = [] ∧
     (∃ d, dsGet r.details "p1" = some d ∧ d.extractionSuccess = false ∧
       d.error = some "Failed to fetch HTML") ∧
     hasSuccessfulRecord r.details "p1" = false) :=
  ⟨rfl, transport_failure_c5 "p1" "u" 0 false (fun _ => Except.ok edPresent)
    false none initScraperState [] [] rfl⟩

/-- C6: for an item that already has a successful detail record,
`process_property` issues no network request, leaves the detail collection
and the item collection exactly as they were, and only counts the item as
skipped (returning `true`): re-processing an already-successful item is a
no-op, so resuming a run is idempotent. -/
theorem skip_successful_c6 (pid url : String) (now : Nat) (shutdown : Bool)
    (fetch : Option (List Char))
    (extract : List Char → Except String ExtractedData)
    (ds : Bool) (dsa : Option Nat)
    (s : ScraperState) (details : List DetailDoc) (props : List PropDoc)
    (h : hasSuccessfulRecord details pid = true) :
    processProperty ⟨pid, some url, ds, dsa⟩ fetch extract now shutdown s
        details props =
      ⟨true,
        { s with stats := { s.stats with skipped := s.stats.skipped + 1 } },
        details, props, false⟩ := by
  simp [processProperty, h]

/-- Witness for `skip_successful_c6` at a concrete input: a store holding a
successful record for the item. -/
theorem skip_successful_c6_witness :
    hasSuccessfulRecord [⟨"p1", "u", 0, true, none, none, some edPresent⟩]
        "p1" = true ∧
    processProperty ⟨"p1", some "u", true, some 0⟩ (some plainHtml)
        (fun _ => Except.ok edPresent) 5 false initScraperState
        [⟨"p1", "u", 0, true, none, none, some edPresent⟩] [] =
      ⟨true,
        { initScraperState with stats :=
          { initScraperState.stats with skipped :=
            initScraperState.stats.skipped + 1 } },
        [⟨"p1", "u", 0, true, none, none, some edPresent⟩], [], false⟩ :=
  ⟨rfl, skip_successful_c6 "p1" "u" 5 false (some plainHtml)
    (fun _ => Except.ok edPresent) true (some 0) initScraperState
    [⟨"p1", "u", 0, true, none, none, some edPresent⟩] [] rfl⟩

/-! ## Incremental harvester (`BayutIncrementalScraper`) -/

/-- `CONSECUTIVE_EXISTING_LIMIT = 2` in `bayut_incremental_scraper.py`. -/
def CONSECUTIVE_EXISTING_LIMIT : Nat := 2

/-- Result dictionary of `_process_properties`, together with the collected
`new_properties` batch and the final value of the local
`consecutive_existing` counter. -/
structure PageResult where
  newProps : List String
  newCount : Nat
  existingCount : Nat
  errCount : Nat
  consecutiveFinal : Nat
deriving Repr, DecidableEq

/-- The item loop of `_process_properties`.  An item is the property id its
`extract_property_from_item` call yields (`none` models an extraction error,
which bumps `result['errors']` and neither increments nor resets the local
counter).  `property_exists` is membership in `db`, the id set of the
`sublocation_properties` collection at page start (new ids are batched and
only inserted after the loop).  A run of `CONSECUTIVE_EXISTING_LIMIT` known
items breaks out of the loop early. -/
def processItems (db : List String) :
    List (Option String) → Nat → List String → Nat → Nat → Nat → PageResult
  | [], consec, acc, newC, exC, errC => ⟨acc.reverse, newC, exC, errC, consec⟩
  | none :: rest, consec, acc, newC, exC, errC =>
    processItems db rest consec acc newC exC (errC + 1)
  | some pid :: rest, consec, acc, newC, exC, errC =>
    if db.contains pid then
      if consec + 1 ≥ CONSECUTIVE_EXISTING_LIMIT then
        ⟨acc.reverse, newC, exC + 1, errC, consec + 1⟩
    else
        processItems db rest (consec + 1) acc newC (exC + 1) errC
    else
      processItems db rest 0 (pid :: acc) (newC + 1) exC errC

/-- `_bulk_insert_properties` restricted to the id set: upsert each batched
new id into the collection (ids already present are not duplicated). -/
def dbInsert (db : List String) (newProps : List String) : List String :=
  newProps.foldl (fun d p => if d.contains p then d else d ++ [p]) db

/-- `_process_properties(ldjson, page_num)` as a state transformer on the id
set of the collection and on `self.stats['consecutive_existing']` (which is
assigned only when the local counter has reached the limit). -/
def processPropertiesPage (db : List String) (consecStat : Nat)
    (items : List (Option String)) : List String × Nat × PageResult :=
  let pr := processItems db items 0 [] 0 0 0
  let db1 := dbInsert db pr.newProps
  let consecStat1 :=
    if pr.consecutiveFinal ≥ CONSECUTIVE_EXISTING_LIMIT then pr.consecutiveFinal
    else consecStat
  (db1, consecStat1, pr)

/-- The observable state of `BayutIncrementalScraper.run`: the collection id
set and the statistics the loop reads and reports. -/
structure RunState where
  db : List String
  statsConsec : Nat
  pagesScraped : Nat
  newTotal : Nat
  existingTotal : Nat
  stoppedEarly : Bool
deriving Repr, DecidableEq

/-- The page loop of `run(max_pages)`, driven by a synthetic page stream
(one entry per page the site would serve; the list length plays the role of
`max_pages`).  After each processed page the loop stops as soon as
`self.stats['consecutive_existing']` has reached the limit; remaining pages
are never fetched. -/
def runIncAux : RunState → List (List (Option String)) → RunState
  | st, [] => st
  | st, page :: rest =>
    let r := processPropertiesPage st.db st.statsConsec page
    let st1 : RunState :=
      { db := r.1
        statsConsec := r.2.1
        pagesScraped := st.pagesScraped + 1
        newTotal := st.newTotal + r.2.2.newCount
        existingTotal := st.existingTotal + r.2.2.existingCount
        stoppedEarly := st.stoppedEarly }
    if r.2.1 ≥ CONSECUTIVE_EXISTING_LIMIT then { st1 with stoppedEarly := true }
    else runIncAux st1 rest

/-- `BayutIncrementalScraper.run` on a synthetic page stream, starting from a
given pre-existing collection id set. -/
def runInc (db : List String) (pages : List (List (Option String))) :
    RunState := runIncAux ⟨db, 0, 0, 0, 0, false⟩ pages

/-- The synthetic stream of C2: a collection already holding k1, k2, k3 and a
stream of three pages — 3 new items, then 2 already-known items, then 1
already-known item. -/
def c2Db : List String := ["k1", "k2", "k3"]

/-- The three synthetic pages of C2. -/
def c2Pages : List (List (Option String)) :=
  [ [some "n1", some "n2", some "n3"]
  , [some "k1", some "k2"]
  , [some "k3"] ]

/-- Counterexample to C2 as stated: on the synthetic stream
(3 new → 2 known → 1 known, threshold 2) the harvester stops after the
SECOND page — the two known items of page 2 reach the threshold within that
page and the run loop breaks before ever fetching the third page — so
`pages_scraped` is 2, not 3. -/
theorem incremental_stop_c2_counterexample :
    (runInc c2Db c2Pages).pagesScraped = 2 ∧
    (runInc c2Db c2Pages).stoppedEarly = true ∧
    (runInc c2Db c2Pages).pagesScraped ≠ 3 := by
  refine ⟨rfl, rfl, ?_⟩
  decide

/-- C2 (amended): on the synthetic stream the incremental harvester stops
after the second page (the third page is never processed), having inserted
exactly the 3 new items of page 1; within a page the consecutive-known
counter is reset to 0 by every new item (after page 1's three new items the
final counter is 0) and reaching the threshold stops processing of the
current page early with `stats['consecutive_existing']` recording the
threshold-length run. -/
theorem incremental_stop_c2_amended :
    (runInc c2Db c2Pages).pagesScraped = 2 ∧
    (runInc c2Db c2Pages).stoppedEarly = true ∧
    (runInc c2Db c2Pages).newTotal = 3 ∧
    (runInc c2Db c2Pages).db = ["k1", "k2", "k3", "n1", "n2", "n3"] ∧
    (processItems c2Db [some "n1", some "n2", some "n3"] 0 [] 0 0
        0).consecutiveFinal = 0 ∧
    (processItems c2Db [some "k1", some "k2"] 0 [] 0 0 0).consecutiveFinal =
      CONSECUTIVE_EXISTING_LIMIT ∧
    (runInc c2Db c2Pages).statsConsec = 2 := by
  refine ⟨rfl, rfl, rfl, ?_, rfl, ?_, rfl⟩ <;> decide

/-- C10: the consecutive-known counter of `_process_properties` is local to
each page — `processItems` is always entered with the counter at 0, and the
persistent `stats['consecutive_existing']` is either left unchanged by a page
or set to a value that already reached the threshold within that single page.
Concretely, with threshold 2, a known item at the end of one page followed by
a known item at the start of the next (stream `[n1, k1]`, `[k2, n2]` against
a collection holding k1, k2) does not trigger the early stop: both pages are
processed and the run completes; whereas the same two known items within a
single page (`[k1, k2]`) stop the crawl at that page. -/
theorem consecutive_counter_page_local_c10 :
    (∀ (db : List String) (cs : Nat) (page : List (Option String)),
      (processPropertiesPage db cs page).2.1 = cs ∨
        ((processPropertiesPage db cs page).2.1 =
            (processItems db page 0 [] 0 0 0).consecutiveFinal ∧
          (processItems db page 0 [] 0 0 0).consecutiveFinal ≥
            CONSECUTIVE_EXISTING_LIMIT)) ∧
    (runInc ["k1", "k2"] [[some "n1", some "k1"], [some "k2",
        some "n2"]]).stoppedEarly = false ∧
    (runInc ["k1", "k2"] [[some "n1", some "k1"], [some "k2",
        some "n2"]]).pagesScraped = 2 ∧
    (runInc ["k1", "k2"] [[some "n1", some "k1"], [some "k2",
        some "n2"]]).existingTotal = 2 ∧
    (runInc ["k1", "k2"] [[some "k1", some "k2"]]).stoppedEarly = true := by
  refine ⟨?_, rfl, rfl, rfl, rfl⟩
  intro db cs page
  unfold processPropertiesPage
  by_cases h : (processItems db page 0 [] 0 0 0).consecutiveFinal ≥
      CONSECUTIVE_EXISTING_LIMIT
  · exact Or.inr ⟨by simp [h], h⟩
  · exact Or.inl (by simp [h])

/-! ## Dedup store upsert (`bulk_upsert_items` in `bayut_ldjson_to_mongo.py`) -/

/-- One `appearance` record as assembled in `bulk_upsert_items`. -/
structure Appearance where
  pageNumber : Nat
  position : Nat
  location : String
  price : Option Nat
  scrapedAt : Nat
deriving Repr, DecidableEq

/-- One document produced by `doc_from_item` (the raw item being an opaque
payload, and the `location` string already resolved the way the appearance
record resolves it). -/
structure ListingDoc where
  propertyId : String
  position : Nat
  detailedUrl : Option String
  pageNumber : Nat
  fetchedAt : Nat
  rawItem : String
  price : Option Nat
  purpose : String
  location : String
deriving Repr, DecidableEq

/-- One Item row of the deduplicated collection, with the fields written by
`bulk_upsert_items` (`$set` + `$addToSet` + `$push` + `$setOnInsert`). -/
structure ItemDoc where
  propertyId : String
  detailedUrl : Option String
  lastRawItem : String
  lastSeen : Nat
  lastPage : Nat
  lastPosition : Nat
  lastLocation : String
  currentPrice : Option Nat
  purpose : String
  locationsSeen : List String
  appearances : List Appearance
  firstSeen : Nat
  firstPage : Nat
  firstLocation : String
  detailScraped : Bool
  createdAt : Nat
deriving Repr, DecidableEq

/-- The `appearance` dict built from one listing document. -/
def mkAppearance (d : ListingDoc) : Appearance :=
  ⟨d.pageNumber, d.position, d.location, d.price, d.fetchedAt⟩

/-- `$push` with `$each: [a]` and `$slice: -100`: append, then keep only the
last 100 entries. -/
def pushSlice (l : List Appearance) (a : Appearance) : List Appearance :=
  (l ++ [a]).drop (l.length + 1 - 100)

/-- `$addToSet`: append the value unless it is already present. -/
def addToSet (l : List String) (x : String) : List String :=
  if l.contains x then l else l ++ [x]

/-- The update document of one `UpdateOne` of `bulk_upsert_items`, applied to
the matched row (`some o`) or materialised as a fresh row (`none`, in which
case the `$setOnInsert` fields are also written). -/
def applyUpdate (old : Option ItemDoc) (d : ListingDoc) : ItemDoc :=
  match old with
  | none =>
    { propertyId := d.propertyId
      detailedUrl := d.detailedUrl
      lastRawItem := d.rawItem
      lastSeen := d.fetchedAt
      lastPage := d.pageNumber
      lastPosition := d.position
      lastLocation := d.location
      currentPrice := d.price
      purpose := d.purpose
      locationsSeen := addToSet [] d.location
      appearances := pushSlice [] (mkAppearance d)
      firstSeen := d.fetchedAt
      firstPage := d.pageNumber
      firstLocation := d.location
      detailScraped := false
      createdAt := d.fetchedAt }
  | some o =>
    { o with
      propertyId := d.propertyId
      detailedUrl := d.detailedUrl
      lastRawItem := d.rawItem
      lastSeen := d.fetchedAt
      lastPage := d.pageNumber
      lastPosition := d.position
      lastLocation := d.location
      currentPrice := d.price
      purpose := d.purpose
      locationsSeen := addToSet o.locationsSeen d.location
      appearances := pushSlice o.appearances (mkAppearance d) }

/-- `coll.find_one({'property_id': k})` on the Item collection. -/
def storeGet : List ItemDoc → String → Option ItemDoc
  | [], _ => none
  | i :: rest, k => if i.propertyId == k then some i else storeGet rest k

/-- Write-back of an upserted row: replace the first row matching the filter
`{'property_id': k}`, or append a fresh row when none matches. -/
def storeSet : List ItemDoc → String → ItemDoc → List ItemDoc
  | [], _, v => [v]
  | i :: rest, k, v =>
    if i.propertyId == k then v :: rest else i :: storeSet rest k v

/-- One `UpdateOne({"property_id": d["_upsert_key"]}, ..., upsert=True)` of
`bulk_upsert_items` (`_upsert_key` equals `property_id` by construction in
`doc_from_item`). -/
def upsertItem (st : List ItemDoc) (d : ListingDoc) : List ItemDoc :=
  storeSet st d.propertyId (applyUpdate (storeGet st d.propertyId) d)

/-- `bulk_upsert_items(coll, docs)`: apply every `UpdateOne` of the batch. -/
def bulkUpsertItems (st : List ItemDoc) (ds : List ListingDoc) : List ItemDoc :=
  ds.foldl upsertItem st

/-- The per-row Item invariant claimed by the spec: `appearances` has at most
100 entries and `locations_seen` holds no duplicate entry. -/
def ItemInv (i : ItemDoc) : Prop :=
  i.appearances.length ≤ 100 ∧ i.locationsSeen.Nodup

/-- The collection invariant: every row satisfies `ItemInv` and no two rows
share a `property_id`. -/
def StoreInv (st : List ItemDoc) : Prop :=
  (∀ i ∈ st, ItemInv i) ∧ (st.map fun i => i.propertyId).Nodup

theorem pushSlice_length_le (l : List Appearance) (a : Appearance) :
    (pushSlice l a).length ≤ 100 := by
  unfold pushSlice
  rw [List.length_drop]
  simp only [List.length_append, List.length_singleton]
  omega

theorem addToSet_nodup {l : List String} (x : String) (h : l.Nodup) :
    (addToSet l x).Nodup := by
  unfold addToSet
  split
  · exact h
  · next hc =>
    have hx : x ∉ l := fun hm => hc (List.elem_eq_true_of_mem hm)
    simp [List.nodup_append, h, hx]

theorem applyUpdate_inv (old : Option ItemDoc) (d : ListingDoc)
    (h : ∀ o, old = some o → ItemInv o) : ItemInv (applyUpdate old d) := by
  cases old with
  | none =>
    constructor
    · exact pushSlice_length_le ..
    · exact addToSet_nodup _ List.nodup_nil
  | some o =>
    constructor
    · exact pushSlice_length_le ..
    · exact addToSet_nodup _ (h o rfl).2

theorem applyUpdate_propertyId (old : Option ItemDoc) (d : ListingDoc) :
    (applyUpdate old d).propertyId = d.propertyId := by
  cases old <;> rfl

theorem storeGet_mem : ∀ (st : List ItemDoc) (k : String) (i : ItemDoc),
    storeGet st k = some i → i ∈ st := by
  intro st k i
  induction st with
  | nil => intro h; simp [storeGet] at h
  | cons j rest ih =>
    intro h
    by_cases hj : j.propertyId == k
    · simp only [storeGet, hj, if_true, Option.some.injEq] at h
      exact h ▸ List.mem_cons_self ..
    · simp only [storeGet, hj, Bool.false_eq_true, if_false] at h
      exact List.mem_cons_of_mem _ (ih h)

theorem mem_storeSet : ∀ (st : List ItemDoc) (k : String) (v j : ItemDoc),
    j ∈ storeSet st k v → j ∈ st ∨ j = v := by
  intro st k v j
  induction st with
  | nil => intro h; simpa [storeSet] using h
  | cons i rest ih =>
    intro h
    by_cases hi : i.propertyId == k
    · simp only [storeSet, hi, if_true, List.mem_cons] at h
      rcases h with h | h
      · exact Or.inr h
      · exact Or.inl (List.mem_cons_of_mem _ h)
    · simp only [storeSet, hi, Bool.false_eq_true, if_false,
        List.mem_cons] at h
      rcases h with h | h
      · exact Or.inl (by rw [h]; exact List.mem_cons_self ..)
      · rcases ih h with h2 | h2
        · exact Or.inl (List.mem_cons_of_mem _ h2)
        · exact Or.inr h2

theorem storeSet_ids_nodup :
    ∀ (st : List ItemDoc) (k : String) (v : ItemDoc),
      v.propertyId = k → (st.map fun i => i.propertyId).Nodup →
      ((storeSet st k v).map fun i => i.propertyId).Nodup := by
  intro st k v hv
  induction st with
  | nil => intro _; simp [storeSet]
  | cons i rest ih =>
    intro h
    simp only [List.map_cons, List.nodup_cons] at h
    by_cases hi : i.propertyId == k
    · have hik : i.propertyId = k := by
        exact eq_of_beq hi
      simp only [storeSet, hi, if_true, List.map_cons, List.nodup_cons]
      exact ⟨by rw [hv, ← hik]; exact h.1, h.2⟩
    · have hik : ¬ i.propertyId = k := by
        intro hh
        rw [hh] at hi
        simp at hi
      simp only [storeSet, hi, Bool.false_eq_true, if_false, List.map_cons,
        List.nodup_cons]
      refine ⟨?_, ih h.2⟩
      intro hmem
      rcases List.mem_map.mp hmem with ⟨j, hj, hjid⟩
      rcases mem_storeSet rest k v j hj with hj2 | hj2
      · exact h.1 (List.mem_map.mpr ⟨j, hj2, hjid⟩)
      · rw [hj2, hv] at hjid
        exact hik hjid.symm

theorem upsertItem_inv (st : List ItemDoc) (d : ListingDoc)
    (h : StoreInv st) : StoreInv (upsertItem st d) := by
  unfold upsertItem
  constructor
  · intro i hi
    rcases mem_storeSet _ _ _ _ hi with h2 | h2
    · exact h.1 i h2
    · rw [h2]
      refine applyUpdate_inv _ _ ?_
      intro o ho
      exact h.1 o (storeGet_mem _ _ _ ho)
  · exact storeSet_ids_nodup _ _ _ (applyUpdate_propertyId ..) h.2

theorem bulkUpsertItems_inv :
    ∀ (ds : List ListingDoc) (st : List ItemDoc),
      StoreInv st → StoreInv (bulkUpsertItems st ds) := by
  intro ds
  induction ds with
  | nil => intro st h; exact h
  | cons d rest ih =>
    intro st h
    exact ih _ (upsertItem_inv st d h)

theorem storeGet_storeSet (st : List ItemDoc) (k : String) (v : ItemDoc)
    (hv : v.propertyId = k) : storeGet (storeSet st k v) k = some v := by
  induction st with
  | nil => simp [storeSet, storeGet, hv]
  | cons i rest ih =>
    by_cases hi : i.propertyId == k
    · simp [storeSet, storeGet, hi, hv]
    · simp only [storeSet, hi, Bool.false_eq_true, if_false, storeGet]
      simp [hi, ih]

theorem pushSlice_lastN (m : List Appearance) (a : Appearance) :
    pushSlice (m.drop (m.length - 100)) a = (m ++ [a]).drop (m.length + 1 - 100) := by
  unfold pushSlice
  rw [List.length_drop]
  rcases Nat.lt_or_ge m.length 100 with h | h
  · have h1 : m.length - (m.length - 100) + 1 - 100 = 0 := by omega
    have h2 : m.length - 100 = 0 := by omega
    have h3 : m.length + 1 - 100 = 0 := by omega
    rw [h1, h2, h3, List.drop_zero, List.drop_zero, List.drop_zero]
  · have h1 : m.length - (m.length - 100) + 1 - 100 = 1 := by omega
    have h2 : (1 : Nat) ≤ (m.drop (m.length - 100)).length := by
      rw [List.length_drop]; omega
    have h3 : m.length + 1 - 100 ≤ m.length := by omega
    rw [h1, List.drop_append_of_le_length h2, List.drop_drop,
      List.drop_append_of_le_length h3]
    have h4 : m.length - 100 + 1 = m.length + 1 - 100 := by omega
    rw [h4]

theorem bulk_single_appearances :
    ∀ (docs : List ListingDoc) (pid : String),
      (∀ d ∈ docs, d.propertyId = pid) →
      (docs = [] ∧ bulkUpsertItems [] docs = []) ∨
        ∃ i, bulkUpsertItems [] docs = [i] ∧ i.propertyId = pid ∧
          i.appearances =
            (docs.map mkAppearance).drop (docs.length - 100) := by
  intro docs
  induction docs using List.reverseRecOn with
  | nil => intro pid _; exact Or.inl ⟨rfl, rfl⟩
  | append_singleton ds d ih =>
    intro pid hall
    have hd : d.propertyId = pid := hall d (by simp)
    have hds : ∀ e ∈ ds, e.propertyId = pid := by
      intro e he
      exact hall e (by simp [he])
    have hfold : bulkUpsertItems [] (ds ++ [d]) =
        upsertItem (bulkUpsertItems [] ds) d := by
      unfold bulkUpsertItems
      rw [List.foldl_append]
      rfl
    rcases ih pid hds with ⟨hds0, hnil⟩ | ⟨i, hi, hip, hiapp⟩
    · refine Or.inr ⟨applyUpdate none d, ?_, ?_, ?_⟩
      · rw [hfold, hnil]
        rfl
      · rw [applyUpdate_propertyId, hd]
      · subst hds0
        rfl
    · refine Or.inr ⟨applyUpdate (some i) d, ?_, ?_, ?_⟩
      · rw [hfold, hi]
        unfold upsertItem
        have hget : storeGet [i] d.propertyId = some i := by
          simp [storeGet, hip, hd]
        rw [hget]
        simp [storeSet, hip, hd]
      · rw [applyUpdate_propertyId, hd]
      · show (applyUpdate (some i) d).appearances = _
        have : (applyUpdate (some i) d).appearances =
            pushSlice i.appearances (mkAppearance d) := rfl
        rw [this, hiapp]
        have := pushSlice_lastN (ds.map mkAppearance) (mkAppearance d)
        rw [List.length_map] at this
        rw [this]
        simp [List.length_append]

/-- C7: for every starting collection satisfying the Item invariant and
every sequence of upsert batches, `bulk_upsert_items` preserves the
invariant — every row keeps at most 100 `appearances` entries and a
duplicate-free `locations_seen`, and no `property_id` ever occupies two rows;
the `first_seen` / `first_page` / `first_location` / `created_at` fields are
fixed at creation (to the first observation's values) and never modified by
a later upsert of the same id; and the `appearances` of an item fed any
sequence of observations are exactly the most recent 100 of them in arrival
order. -/
theorem upsert_invariants_c7 :
    (∀ (st : List ItemDoc) (ds : List ListingDoc),
      StoreInv st → StoreInv (bulkUpsertItems st ds)) ∧
    (∀ (st : List ItemDoc) (d : ListingDoc) (i : ItemDoc),
      storeGet st d.propertyId = some i →
      ∃ j, storeGet (upsertItem st d) d.propertyId = some j ∧
        j.firstSeen = i.firstSeen ∧ j.firstPage = i.firstPage ∧
        j.firstLocation = i.firstLocation ∧ j.createdAt = i.createdAt) ∧
    (∀ (st : List ItemDoc) (d : ListingDoc),
      storeGet st d.propertyId = none →
      storeGet (upsertItem st d) d.propertyId = some (applyUpdate none d) ∧
        (applyUpdate none d).firstSeen = d.fetchedAt ∧
        (applyUpdate none d).firstPage = d.pageNumber ∧
        (applyUpdate none d).firstLocation = d.location ∧
        (applyUpdate none d).createdAt = d.fetchedAt) ∧
    (∀ (docs : List ListingDoc) (pid : String) (i : ItemDoc),
      (∀ d ∈ docs, d.propertyId = pid) →
      storeGet (bulkUpsertItems [] docs) pid = some i →
      i.appearances = (docs.map mkAppearance).drop (docs.length - 100)) := by
  refine ⟨fun st ds h => bulkUpsertItems_inv ds st h, ?_, ?_, ?_⟩
  · intro st d i h
    refine ⟨applyUpdate (some i) d, ?_, rfl, rfl, rfl, rfl⟩
    unfold upsertItem
    rw [h]
    exact storeGet_storeSet _ _ _ (applyUpdate_propertyId ..)
  · intro st d h
    refine ⟨?_, rfl, rfl, rfl, rfl⟩
    unfold upsertItem
    rw [h]
    exact storeGet_storeSet _ _ _ (applyUpdate_propertyId ..)
  · intro docs pid i hall hget
    rcases bulk_single_appearances docs pid hall with ⟨_, hnil⟩ |
      ⟨j, hj, _, hjapp⟩
    · rw [hnil] at hget
      simp [storeGet] at hget
    · rw [hj] at hget
      have : i = j := by
        by_cases hjid : j.propertyId == pid
        · simp only [storeGet, hjid, if_true, Option.some.injEq] at hget
          exact hget.symm
        · simp [storeGet, hjid] at hget
      rw [this, hjapp]

/-- Witness for `upsert_invariants_c7`: two observations of the same id
upserted into an empty collection. -/
theorem upsert_invariants_c7_witness :
    StoreInv (bulkUpsertItems []
      [⟨"p1", 1, some "u", 1, 10, "raw", some 5, "for-sale", "dubai"⟩,
       ⟨"p1", 2, some "u", 2, 20, "raw2", some 6, "for-sale", "dubai"⟩]) :=
  (upsert_invariants_c7.1 []
    [⟨"p1", 1, some "u", 1, 10, "raw", some 5, "for-sale", "dubai"⟩,
     ⟨"p1", 2, some "u", 2, 20, "raw2", some 6, "for-sale", "dubai"⟩]
    ⟨(by intro i hi; cases hi), List.nodup_nil⟩)

/-! ## Listing harvester empty-page policy (`run_csv_mode`,
`bayut_csv_scraper.run`) -/

/-- What one iteration of the per-location page loop observes: a non-2xx
response, a body under the 1000-byte minimum, zero extracted items (or no
LD+JSON), an exception while fetching/parsing the page, or a successful page
whose items were upserted. -/
inductive PageOutcome where
  | httpError : PageOutcome
  | smallBody : PageOutcome
  | noItems : PageOutcome
  | fetchError : PageOutcome
  | success : PageOutcome
deriving Repr, DecidableEq

/-- Effect of one page on the `consecutive_empty_pages` counter: every
empty/invalid outcome increments it, a successful page resets it to 0. -/
def stepEmptyCounter (c : Nat) : PageOutcome → Nat
  | .httpError => c + 1
  | .smallBody => c + 1
  | .noItems => c + 1
  | .fetchError => c + 1
  | .success => 0

/-- The page loop of `run_csv_mode` for one location, driven by the stream of
page outcomes the site would produce (the list length plays the role of the
page range bound).  Each iteration first checks
`consecutive_empty_pages >= 5` and breaks if it holds; otherwise the page is
processed and the counter updated.  Returns the number of pages actually
processed and whether the loop stopped early via the empty-page policy. -/
def csvLoop : Nat → List PageOutcome → Nat × Bool
  | _, [] => (0, false)
  | c, p :: rest =>
    if c ≥ 5 then (0, true)
    else
      let r := csvLoop (stepEmptyCounter c p) rest
      (r.1 + 1, r.2)

/-- C8: the harvester stops after a run of 5 consecutive empty/invalid pages
— a non-2xx status, a body below the minimum-size threshold, zero extracted
items and a per-page fetch/parse error each increment the empty-page counter
while a successful page resets it to 0; after 5 consecutive bad pages the
loop breaks before fetching a 6th page, and a single page's error with more
pages available never aborts the run by itself. -/
theorem empty_page_stop_c8 :
    (∀ c, stepEmptyCounter c .httpError = c + 1 ∧
      stepEmptyCounter c .smallBody = c + 1 ∧
      stepEmptyCounter c .noItems = c + 1 ∧
      stepEmptyCounter c .fetchError = c + 1 ∧
      stepEmptyCounter c .success = 0) ∧
    csvLoop 0 [.httpError, .smallBody, .noItems, .fetchError, .httpError,
      .success, .success] = (5, true) ∧
    csvLoop 0 [.fetchError, .success, .success] = (3, false) :=
  ⟨fun c => ⟨rfl, rfl, rfl, rfl, rfl⟩, by decide, by decide⟩

/-! ## Identity resolver (`property_id_from_url` / `doc_from_item`) -/

/-- Maximal digit run at the head of the list: the pair of the run and the
remaining characters (the semantics of a greedy `\d+`). -/
def digitRun : List Char → List Char × List Char
  | [] => ([], [])
  | c :: rest =>
    if c.isDigit then
      let p := digitRun rest
      (c :: p.1, p.2)
    else ([], c :: rest)

/-- Match the regex `details-(\d+)\.html` anchored at the current position,
returning the captured digits.  Greedy `\d+` with backtracking is equivalent
to the maximal digit run here: giving a digit back would leave a digit where
the literal dot must match, which always fails. -/
def matchAt (l : List Char) : Option (List Char) :=
  if startsWith l ("details-".data) then
    let p := digitRun (l.drop 8)
    if p.1.isEmpty then none
    else if startsWith p.2 (".html".data) then some p.1
    else none
  else none

/-- `re.search` with the pattern `details-(\d+)\.html`: the leftmost match's
captured digits. -/
def searchDetailId : List Char → Option (List Char)
  | [] => none
  | c :: rest =>
    match matchAt (c :: rest) with
    | some ds => some ds
    | none => searchDetailId rest

/-- `property_id_from_url(u)`: `none` models a falsy `u` (Python `None` or
the empty string, which `doc_from_item` already normalises to `None`). -/
def propertyIdFromUrl (u : Option String) : Option String :=
  match u with
  | none => none
  | some s => (searchDetailId s.data).map fun ds => String.mk ds

/-- `(url or json.dumps(main, ensure_ascii=False))[:256]` — the string fed to
the md5 fallback, truncated to at most 256 characters (`serializedMain`
abstracts the JSON serialisation of the raw item). -/
def hashBase (url : Option String) (serializedMain : String) : List Char :=
  (match url with
   | some v => v.data
   | none => serializedMain.data).take 256

/-- The identity resolution of `doc_from_item` /
`extract_property_from_item`: the numeric token of the detail URL when the
pattern matches, else `"hash_" + md5hex(base)` where `md5hex` abstracts the
hex digest of the md5 of the UTF-8 encoding (the resolver is a pure Lean
function of its inputs, so determinism — identical input, identical id —
holds by construction for every hash collaborator). -/
def resolveId (md5hex : List Char → String) (url : Option String)
    (serializedMain : String) : String :=
  match propertyIdFromUrl url with
  | some pid => pid
  | none => "hash_" ++ md5hex (hashBase url serializedMain)

/-- Number of bytes of the UTF-8 encoding of a character list (what
`base.encode("utf-8")` produces and md5 actually consumes). -/
def utf8Len (l : List Char) : Nat := (l.map Char.utf8Size).sum

theorem digitRun_all_digits : ∀ l : List Char,
    (digitRun l).1.all Char.isDigit = true := by
  intro l
  induction l with
  | nil => rfl
  | cons c rest ih =>
    unfold digitRun
    by_cases hc : c.isDigit
    · simp [hc, ih]
    · simp [hc]

theorem matchAt_digits (l ds : List Char) (h : matchAt l = some ds) :
    ds ≠ [] ∧ ds.all Char.isDigit = true := by
  unfold matchAt at h
  by_cases h1 : startsWith l ("details-".data)
  · simp only [h1, if_true] at h
    by_cases h2 : (digitRun (l.drop 8)).1.isEmpty
    · simp [h2] at h
    · simp only [h2, Bool.false_eq_true, if_false] at h
      by_cases h3 : startsWith (digitRun (l.drop 8)).2 (".html".data)
      · simp only [h3, if_true, Option.some.injEq] at h
        subst h
        refine ⟨?_, digitRun_all_digits _⟩
        intro hnil
        rw [hnil] at h2
        exact h2 rfl
      · simp [h3] at h
  · simp [h1] at h

theorem searchDetailId_digits : ∀ (l ds : List Char),
    searchDetailId l = some ds → ds ≠ [] ∧ ds.all Char.isDigit = true := by
  intro l
  induction l with
  | nil => intro ds h; simp [searchDetailId] at h
  | cons c rest ih =>
    intro ds h
    unfold searchDetailId at h
    cases hm : matchAt (c :: rest) with
    | some ds2 =>
      rw [hm] at h
      cases h
      exact matchAt_digits _ _ hm
    | none =>
      rw [hm] at h
      exact ih ds h

/-- A 256-character URL consisting solely of the euro sign: it defeats the
detail-id pattern, so the hash fallback fires on it. -/
def euro256 : String := String.mk (List.replicate 256 '€')

set_option maxRecDepth 4000 in
/-- Counterexample to C9 as stated: the hash fallback truncates to 256
CHARACTERS, not 256 bytes — for `euro256` the representation fed to the
hash is 256 characters long but its UTF-8 encoding is 768 bytes, which is
not at most 256 bytes. -/
theorem identity_resolver_c9_counterexample :
    propertyIdFromUrl (some euro256) = none ∧
    (hashBase (some euro256) "").length = 256 ∧
    utf8Len (hashBase (some euro256) "") = 768 ∧
    ¬ utf8Len (hashBase (some euro256) "") ≤ 256 := by
  refine ⟨by decide, by decide, by decide, by decide⟩

/-- C9 (amended): the Identity Resolver is pure and deterministic by
construction (a mathematical function of the URL / serialized raw item for
every hash collaborator `md5hex`); when the fixed URL pattern matches, the
id is the extracted numeric token (a nonempty all-digit string); otherwise
the id is `"hash_"` followed by the content hash of a representation
truncated to at most 256 CHARACTERS (which may exceed 256 bytes once UTF-8
encoded) — the URL if present, else the serialized raw item; and a
`"hash_"`-prefixed synthetic id never equals a natural all-digit id. -/
theorem identity_resolver_c9_amended :
    (∀ (md5hex : List Char → String) (url : Option String) (ser : String),
      (∀ t, propertyIdFromUrl url = some t →
        resolveId md5hex url ser = t ∧ t ≠ "" ∧
          t.data.all Char.isDigit = true) ∧
      (propertyIdFromUrl url = none →
        resolveId md5hex url ser = "hash_" ++ md5hex (hashBase url ser) ∧
          (hashBase url ser).length ≤ 256)) ∧
    (∀ t h : String, t.data.all Char.isDigit = true → t ≠ "" →
      "hash_" ++ h ≠ t) := by
  constructor
  · intro md5hex url ser
    constructor
    · intro t ht
      refine ⟨by simp [resolveId, ht], ?_, ?_⟩
      · cases url with
        | none => simp [propertyIdFromUrl] at ht
        | some s =>
          simp only [propertyIdFromUrl, Option.map_eq_some'] at ht
          rcases ht with ⟨ds, hds, hmk⟩
          have hne := (searchDetailId_digits _ _ hds).1
          intro h0
          apply hne
          have : t.data = ds := by rw [← hmk]
          have h1 : t.data = [] := by rw [h0]
          rw [this] at h1
          exact h1
      · cases url with
        | none => simp [propertyIdFromUrl] at ht
        | some s =>
          simp only [propertyIdFromUrl, Option.map_eq_some'] at ht
          rcases ht with ⟨ds, hds, hmk⟩
          have hall := (searchDetailId_digits _ _ hds).2
          have : t.data = ds := by rw [← hmk]
          rw [this]
          exact hall
    · intro ht
      refine ⟨by simp [resolveId, ht], ?_⟩
      unfold hashBase
      cases url <;> exact List.length_take_le ..
  · intro t h hall hne heq
    have hdata : ("hash_" ++ h).data = t.data := congrArg String.data heq
    have hcons : ("hash_" ++ h).data =
        'h' :: 'a' :: 's' :: 'h' :: '_' :: h.data := rfl
    rw [hcons] at hdata
    have hmem : ('h' : Char) ∈ t.data := by
      rw [← hdata]
      exact List.mem_cons_self ..
    have := List.all_eq_true.mp hall ('h' : Char) hmem
    simp at this

/-- Witness for `identity_resolver_c9_amended` at a concrete natural URL and
a concrete hash collaborator. -/
theorem identity_resolver_c9_witness :
    (resolveId (fun _ => "d41d8")
        (some "https://www.bayut.com/property/details-12345.html") "x" =
      "12345" ∧ "12345" ≠ "" ∧
      ("12345" : String).data.all Char.isDigit = true) ∧
    "hash_" ++ "d41d8" ≠ "12345" :=
  ⟨((identity_resolver_c9_amended.1 (fun _ => "d41d8")
      (some "https://www.bayut.com/property/details-12345.html") "x").1
      "12345" (by decide)),
    identity_resolver_c9_amended.2 "12345" "d41d8" (by decide) (by decide)⟩

end Bayut
